import Mathlib

/-!
# Azure bucket client factory and Prometheus logger of `dalakatt/mimir`

A shallow embedding of

* `pkg/storage/bucket/azure/bucket_client.go` (`NewBucketClient`), and
* `pkg/util/log/log.go` (`InitLogger`, `PrometheusLogger`, `NewPrometheusLogger`,
  `PrometheusLogger.Log`, `CheckFatal`, `logFilter`).

Go functions with side effects become functions that pass the affected state
explicitly.  The third-party packages the two files call (`go-kit/log`,
`go-kit/log/level`, `yaml.v2`, the Thanos `objstore/azure` package, `os`) are not
part of the repository; the part of them the two files rely on is either a
parameter (`yaml.Marshal`, `azure.NewBucket`, the output encoders' results) or a
small model of the library's behaviour, kept in its own section.
-/

namespace Mimir

/-! ## Go values shared by both files -/

/-- A Go `error` value: its `Error()` text and its rendering under `%+v`. -/
structure GoError where
  message : String
  plusV : String
  deriving DecidableEq, Repr

/-- The four go-kit severity levels (`level.DebugValue()` ... `level.ErrorValue()`). -/
inductive Severity where
  | debug
  | info
  | warn
  | error
  deriving DecidableEq, Repr

/-- The valuers of `go-kit/log` used by `log.go`: a `Valuer` is evaluated each time a
record is emitted. -/
inductive Valuer where
  | DefaultTimestampUTC
  | Caller (depth : Nat)
  deriving DecidableEq, Repr

/-- An element of a key/value sequence (`interface{}` in Go). -/
inductive Value where
  | str (s : String)
  | int (n : Int)
  | level (l : Severity)
  | valuer (v : Valuer)
  | time (t : Nat)
  | errMissingValue
  | other (tag : Nat)
  deriving DecidableEq, Repr

/-- The two output encodings `NewPrometheusLogger` chooses between. -/
inductive Encoding where
  | logfmt
  | json
  deriving DecidableEq, Repr

/-- One record handed to an output encoder writing to `os.Stderr`. -/
structure Line where
  enc : Encoding
  keyvals : List Value
  deriving DecidableEq, Repr

/-- The part of the process environment the logging code reads or writes.

* `now`, `callerAt`: what the valuers `DefaultTimestampUTC` and `Caller d` return;
* `encodeErr`: the error (if any) an output encoder returns for a record;
* `stderr`: the records handed to the output encoders so far, oldest first;
* `logMessages`: the per-level Prometheus counters that the doc comments of
  `PrometheusLogger` speak of. -/
structure World where
  now : Nat
  callerAt : Nat → String
  encodeErr : Encoding → List Value → Option GoError
  stderr : List Line
  logMessages : Severity → Nat

/-! ## `go-kit/log` and `go-kit/log/level` (third-party, modelled) -/

mutual
/-- A `log.Logger` interface value, by dynamic type.

* `nop`: `log.NewNopLogger()`;
* `encoder e`: `log.NewLogfmtLogger(log.NewSyncWriter(os.Stderr))` or the JSON one;
* `filter`: the logger `level.NewFilter` returns;
* `prometheus`: a `*PrometheusLogger` of `log.go`;
* `context`: the contextual logger `log.With` and `log.WithPrefix` return;
* `custom`: any other implementation, given by its `Log` method. -/
inductive Logger where
  | nop
  | encoder (e : Encoding)
  | filter (next : Logger) (allowed : Nat) (squelchNoLevel : Bool)
      (errNotAllowed errNoLevel : Option GoError)
  | prometheus (pl : PrometheusLogger)
  | context (logger : Logger) (keyvals : List Value) (hasValuer : Bool)
  | custom (log : List Value → World → Option GoError × World)
/-- Lines 45 to 47: `type PrometheusLogger struct { logger log.Logger }`. -/
inductive PrometheusLogger where
  | mk (logger : Logger)
end

/-- The effect of one `Log` call: the returned error and the new environment. -/
abbrev LogResult := Option GoError × World

/-- The valuer call `v()` at emission time. -/
def bindValue (w : World) : Value → Value
  | .valuer .DefaultTimestampUTC => .time w.now
  | .valuer (.Caller d) => .str (w.callerAt d)
  | v => v

/-- `bindValues`: replaces each valuer in value position (odd index) by its result. -/
def bindValues (w : World) : List Value → List Value
  | k :: v :: rest => k :: bindValue w v :: bindValues w rest
  | kvs => kvs

/-- `containsValuer`: is some element in value position a valuer? -/
def containsValuer : List Value → Bool
  | _ :: .valuer _ :: _ => true
  | _ :: _ :: rest => containsValuer rest
  | _ => false

/-- The go-kit idiom `if len(kvs)%2 != 0 { kvs = append(kvs, ErrMissingValue) }`. -/
def padMissing (kvs : List Value) : List Value :=
  if kvs.length % 2 ≠ 0 then kvs ++ [Value.errMissingValue] else kvs

/-- The key/value sequence a contextual logger with context `ctx` hands to the logger
it wraps when `Log(keyvals...)` is called on it (`(*context).Log`). -/
def contextKeyvals (w : World) (ctx : List Value) (hasValuer : Bool)
    (keyvals : List Value) : List Value :=
  let kvs := padMissing (ctx ++ keyvals)
  if hasValuer then
    let kvs := if keyvals.length = 0 then ctx else kvs
    bindValues w (kvs.take ctx.length) ++ kvs.drop ctx.length
  else kvs

namespace level

/-- The bit of a level value in the filter mask. -/
def bit : Severity → Nat
  | .debug => 1
  | .info => 2
  | .warn => 4
  | .error => 8

/-- The scan of `(*logger).Log` in `go-kit/log/level`: the first level value found in
value position (odd index), if any. -/
def levelOf : List Value → Option Severity
  | _ :: .level l :: _ => some l
  | _ :: _ :: rest => levelOf rest
  | _ => none

/-- A `level.Option` of the filter. -/
inductive FilterOption where
  | allowed (mask : Nat)
  | ErrNotAllowed (err : GoError)
  | SquelchNoLevel (squelch : Bool)
  | ErrNoLevel (err : GoError)
  deriving DecidableEq, Repr

/-- `level.AllowDebug()`. -/
def AllowDebug : FilterOption := .allowed (bit .error ||| bit .warn ||| bit .info ||| bit .debug)

/-- `level.AllowInfo()`. -/
def AllowInfo : FilterOption := .allowed (bit .error ||| bit .warn ||| bit .info)

/-- `level.AllowWarn()`. -/
def AllowWarn : FilterOption := .allowed (bit .error ||| bit .warn)

/-- `level.AllowError()`. -/
def AllowError : FilterOption := .allowed (bit .error)

/-- `level.AllowAll()`, which go-kit defines as `AllowDebug()`. -/
def AllowAll : FilterOption := AllowDebug

/-- The configuration of a filter logger. -/
structure FilterConf where
  allowed : Nat
  squelchNoLevel : Bool
  errNotAllowed : Option GoError
  errNoLevel : Option GoError

/-- Applying one option to the filter under construction. -/
def FilterOption.apply (c : FilterConf) : FilterOption → FilterConf
  | .allowed mask => { c with allowed := mask }
  | .ErrNotAllowed err => { c with errNotAllowed := some err }
  | .SquelchNoLevel squelch => { c with squelchNoLevel := squelch }
  | .ErrNoLevel err => { c with errNoLevel := some err }

/-- `level.NewFilter(next, options...)`. -/
def NewFilter (next : Logger) (options : List FilterOption) : Logger :=
  let c := options.foldl FilterOption.apply ⟨0, false, none, none⟩
  Logger.filter next c.allowed c.squelchNoLevel c.errNotAllowed c.errNoLevel

end level

mutual
/-- The `Log` method of a `log.Logger`, dispatched on the dynamic type. -/
def Logger.Log : Logger → List Value → World → LogResult
  | .nop, _, w => (none, w)
  | .encoder e, kvs, w => (w.encodeErr e kvs, { w with stderr := w.stderr ++ [⟨e, kvs⟩] })
  | .filter next allowed squelchNoLevel errNotAllowed errNoLevel, kvs, w =>
    match level.levelOf kvs with
    | none => if squelchNoLevel then (errNoLevel, w) else next.Log kvs w
    | some l => if allowed &&& level.bit l ≠ 0 then next.Log kvs w else (errNotAllowed, w)
  | .prometheus pl, kvs, w => pl.Log kvs w
  | .context logger ctx hasValuer, kvs, w => logger.Log (contextKeyvals w ctx hasValuer kvs) w
  | .custom log, kvs, w => log kvs w
/-- Lines 67 to 70: `func (pl *PrometheusLogger) Log(kv ...interface{}) error`. -/
def PrometheusLogger.Log : PrometheusLogger → List Value → World → LogResult
  | .mk logger, kv, w => logger.Log kv w
end

/-- `newContext`: the wrapped logger, context and valuer flag of a logger seen as a
contextual logger. -/
def newContext : Logger → Logger × List Value × Bool
  | .context logger keyvals hasValuer => (logger, keyvals, hasValuer)
  | logger => (logger, [], false)

/-- `log.With(logger, keyvals...)`. -/
def With (logger : Logger) (keyvals : List Value) : Logger :=
  if keyvals.length = 0 then logger
  else
    let l := newContext logger
    Logger.context l.1 (padMissing (l.2.1 ++ keyvals)) (l.2.2 || containsValuer keyvals)

/-- `log.WithPrefix(logger, keyvals...)`. -/
def WithPrefix (logger : Logger) (keyvals : List Value) : Logger :=
  if keyvals.length = 0 then logger
  else
    let l := newContext logger
    Logger.context l.1 (padMissing keyvals ++ l.2.1) (l.2.2 || containsValuer keyvals)

namespace level

/-- `level.Key()`. -/
def Key : Value := .str "level"

/-- `level.Error(logger)`. -/
def Error (logger : Logger) : Logger := WithPrefix logger [Key, .level .error]

/-- `level.Warn(logger)`. -/
def Warn (logger : Logger) : Logger := WithPrefix logger [Key, .level .warn]

/-- `level.Info(logger)`. -/
def Info (logger : Logger) : Logger := WithPrefix logger [Key, .level .info]

/-- `level.Debug(logger)`. -/
def Debug (logger : Logger) : Logger := WithPrefix logger [Key, .level .debug]

end level

/-! ## `pkg/storage/bucket/azure` -/

/-- A `flagext.Secret`. -/
structure Secret where
  Value : String
  deriving DecidableEq, Repr

/-- Modelled from the spec: the `Config` struct of package `azure` is declared outside
`bucket_client.go`; its fields are those of the spec's ProviderConfig, which are the
ones `NewBucketClient` reads. -/
structure Config where
  StorageAccountName : String
  StorageAccountKey : Secret
  ContainerName : String
  Endpoint : String
  MaxRetries : Int
  deriving DecidableEq, Repr

namespace azure

/-- The vendor (Thanos `objstore/azure`) `Config`: the five fields `NewBucketClient`
sets in its composite literal. -/
structure Config where
  StorageAccountName : String
  StorageAccountKey : String
  ContainerName : String
  Endpoint : String
  MaxRetries : Int
  deriving DecidableEq, Repr

end azure

/-- A serialized configuration (`[]byte`). -/
abbrev Bytes := List UInt8

/-- One invocation of the vendor constructor `azure.NewBucket(logger, conf, name)`. -/
structure VendorCall where
  logger : Logger
  conf : Bytes
  name : String

/-- The third-party functions `NewBucketClient` calls, for a vendor with state `σ` and
bucket objects `B`: `yaml.Marshal` on a vendor config, and `azure.NewBucket`, which
returns a `*azure.Bucket` (possibly nil) and an error. -/
structure Vendor (σ B : Type) where
  yamlMarshal : azure.Config → Except GoError Bytes
  NewBucket : Logger → Bytes → String → σ → (Option B × Option GoError) × σ

/-- The state `NewBucketClient` runs in: the vendor's own state and the log of the
invocations of `azure.NewBucket`, oldest first. -/
structure BucketState (σ : Type) where
  vendor : σ
  calls : List VendorCall

/-- An `objstore.Bucket` interface value: the nil interface, or a `*azure.Bucket`
(possibly a nil pointer) converted to the interface. -/
inductive Bucket (B : Type) where
  | nil
  | ofAzure (p : Option B)

/-- Lines 16 to 22: the composite literal `azure.Config{...}`. -/
def bucketConfig (cfg : Config) : azure.Config :=
  { StorageAccountName := cfg.StorageAccountName
    StorageAccountKey := cfg.StorageAccountKey.Value
    ContainerName := cfg.ContainerName
    Endpoint := cfg.Endpoint
    MaxRetries := cfg.MaxRetries }

/-- The call `azure.NewBucket(logger, serialized, name)`: runs the vendor constructor
and records the invocation. -/
def callNewBucket {σ B : Type} (v : Vendor σ B) (logger : Logger) (serialized : Bytes)
    (name : String) (s : BucketState σ) : (Option B × Option GoError) × BucketState σ :=
  let r := v.NewBucket logger serialized name s.vendor
  (r.1, { vendor := r.2, calls := s.calls ++ [⟨logger, serialized, name⟩] })

/-- `NewBucketClient(cfg, name, logger)`. -/
def NewBucketClient {σ B : Type} (v : Vendor σ B) (cfg : Config) (name : String)
    (logger : Logger) (s : BucketState σ) : (Bucket B × Option GoError) × BucketState σ :=
  match v.yamlMarshal (bucketConfig cfg) with
  | .error err => ((Bucket.nil, some err), s)
  | .ok serialized =>
    let r := callNewBucket v logger serialized name s
    ((Bucket.ofAzure r.1.1, r.1.2), r.2)

/-! ## `pkg/util/log` -/

namespace logging

/-- The `logging.Level` of `weaveworks/common`: `String()` returns the stored text. -/
structure Level where
  s : String
  deriving DecidableEq, Repr

/-- `func (l Level) String() string`. -/
def Level.String (l : Level) : String := l.s

/-- The `logging.Format` of `weaveworks/common`: `String()` returns the stored text. -/
structure Format where
  s : String
  deriving DecidableEq, Repr

/-- `func (f Format) String() string`. -/
def Format.String (f : Format) : String := f.s

/-- A `logging.Interface` value. -/
inductive Interface where
  | GoKit (logger : Logger)

end logging

namespace server

/-- The fields of `server.Config` that `InitLogger` reads or writes. -/
structure Config where
  LogLevel : logging.Level
  LogFormat : logging.Format
  Log : Option logging.Interface

end server

/-- Lines 87 to 100: `logFilter`. -/
def logFilter (l : String) : level.FilterOption :=
  if l = "debug" then level.AllowDebug
  else if l = "info" then level.AllowInfo
  else if l = "warn" then level.AllowWarn
  else if l = "error" then level.AllowError
  else level.AllowAll

/-- Lines 51 to 65: `NewPrometheusLogger`. -/
def NewPrometheusLogger (l : logging.Level) (format : logging.Format) :
    Logger × Option GoError :=
  let logger := Logger.encoder Encoding.logfmt
  let logger := if format.String = "json" then Logger.encoder Encoding.json else logger
  let logger := level.NewFilter logger [logFilter l.String]
  let logger := Logger.prometheus (PrometheusLogger.mk logger)
  let logger := With logger [Value.str "ts", Value.valuer Valuer.DefaultTimestampUTC]
  (logger, none)

/-- Line 23: the initial value of the package variable `Logger`. -/
def initialLogger : Logger := Logger.nop

/-- Lines 28 to 42: `InitLogger`.  The result is the panic value, or the new value of
the package variable `Logger` together with the updated `*cfg`. -/
def InitLogger (cfg : server.Config) : Except GoError (Logger × server.Config) :=
  match NewPrometheusLogger cfg.LogLevel cfg.LogFormat with
  | (_, some err) => Except.error err
  | (l, none) =>
    Except.ok
      (With l [Value.str "caller", Value.valuer (Valuer.Caller 3)],
       { cfg with
         Log := some (logging.Interface.GoKit
           (With l [Value.str "caller", Value.valuer (Valuer.Caller 4)])) })

/-- How a call of `CheckFatal` ends: it returns, or the process exits with a status. -/
inductive Outcome where
  | returned (w : World)
  | exited (status : Int) (w : World)

/-- The text `fmt.Sprintf("%+v", err)`. -/
def sprintfPlusV (err : GoError) : String := err.plusV

/-- Lines 73 to 83: `CheckFatal`, run with `Logger` as the value of the package
variable of that name. -/
def CheckFatal (Logger : Logger) (location : String) (err : Option GoError) (w : World) :
    Outcome :=
  match err with
  | none => Outcome.returned w
  | some e =>
    let logger := level.Error Logger
    let logger :=
      if location ≠ "" then With logger [Value.str "msg", Value.str ("error " ++ location)]
      else logger
    let r := logger.Log [Value.str "err", Value.str (sprintfPlusV e)] w
    Outcome.exited 1 r.2

/-! ## Definitions used to state the properties -/

/-- The text of a level, as the threshold strings spell it. -/
def Severity.name : Severity → String
  | .debug => "debug"
  | .info => "info"
  | .warn => "warn"
  | .error => "error"

/-- The position of a level in the order `debug < info < warn < error`. -/
def Severity.rank : Severity → Nat
  | .debug => 0
  | .info => 1
  | .warn => 2
  | .error => 3

/-- The encoding selected by a format: JSON for `"json"`, logfmt otherwise. -/
def encodingOf (format : logging.Format) : Encoding :=
  if format.String = "json" then Encoding.json else Encoding.logfmt

/-- The effect of handing the record `kvs` to the output encoder `e`. -/
def emit (e : Encoding) (kvs : List Value) (w : World) : LogResult :=
  (w.encodeErr e kvs, { w with stderr := w.stderr ++ [⟨e, kvs⟩] })

/-- The logger `level.Debug`, `level.Info`, `level.Warn` or `level.Error` derives from
`logger`, by level. -/
def level.leveled (l : Severity) (logger : Logger) : Logger :=
  match l with
  | .debug => level.Debug logger
  | .info => level.Info logger
  | .warn => level.Warn logger
  | .error => level.Error logger

/-- The value `InitLogger` gives the package variable `Logger` for level "info" and the
default format. -/
def startedLogger : Logger :=
  With (NewPrometheusLogger ⟨"info"⟩ ⟨"logfmt"⟩).1
    [Value.str "caller", Value.valuer (Valuer.Caller 3)]

/-- The record `CheckFatal` emits for error `e`, as the logger under the context
`ctx` of the package variable `Logger` receives it: the level pair, the context (its
valuers evaluated when the context has any), the `msg` pair when `location` is not
empty, and the `err` pair. -/
def fatalRecord (w : World) (ctx : List Value) (hasValuer : Bool) (location : String)
    (e : GoError) : List Value :=
  [level.Key, Value.level Severity.error]
    ++ (if hasValuer then bindValues w ctx else ctx)
    ++ (if location = "" then [] else [Value.str "msg", Value.str ("error " ++ location)])
    ++ [Value.str "err", Value.str e.plusV]

/-- An environment with an empty output, all counters at zero and encoders that never
fail. -/
def World.quiet : World :=
  { now := 7
    callerAt := fun d => "frame" ++ toString d
    encodeErr := fun _ _ => none
    stderr := []
    logMessages := fun _ => 0 }

/-- A vendor whose `yaml.Marshal` always fails and whose constructor always yields a
bucket; its state counts the constructions. -/
def failingMarshal : Vendor Nat Unit :=
  { yamlMarshal := fun _ => Except.error ⟨"yaml: cannot marshal", "yaml: cannot marshal"⟩
    NewBucket := fun _ _ _ n => ((some (), none), n + 1) }

/-- A vendor whose `yaml.Marshal` yields the container name's characters and whose
constructor rejects an empty blob. -/
def sampleVendor : Vendor Nat Unit :=
  { yamlMarshal := fun c => Except.ok (c.ContainerName.toList.map fun ch => ch.toNat.toUInt8)
    NewBucket := fun _ conf _ n =>
      if conf = [] then ((none, some ⟨"no container", "no container"⟩), n + 1)
      else ((some (), none), n + 1) }

/-- A sample provider configuration. -/
def sampleConfig : Config :=
  { StorageAccountName := "acct"
    StorageAccountKey := ⟨"key"⟩
    ContainerName := "blocks"
    Endpoint := ""
    MaxRetries := 3 }

/-! ## Lemmas on the go-kit model -/

theorem padMissing_cons_cons (k v : Value) (rest : List Value) :
    padMissing (k :: v :: rest) = k :: v :: padMissing rest := by
  have hp : (rest.length + 1 + 1) % 2 = rest.length % 2 := by omega
  unfold padMissing
  by_cases h : rest.length % 2 = 0
  · simp [List.length_cons, hp, h]
  · simp [List.length_cons, hp, h]

theorem levelOf_padMissing (kv : List Value) :
    level.levelOf (padMissing kv) = level.levelOf kv := by
  induction kv using level.levelOf.induct with
  | case1 k l rest => simp [padMissing_cons_cons, level.levelOf]
  | case2 k v rest hv ih =>
    rw [padMissing_cons_cons, level.levelOf, level.levelOf, ih]
    · exact hv
    · exact hv
  | case3 kv h1 h2 =>
    match kv with
    | [] => simp [padMissing, level.levelOf]
    | [x] => simp [padMissing, level.levelOf]
    | k :: v :: rest =>
      cases v <;> simp_all

theorem padMissing_append_even (ctx kv : List Value) (h : ctx.length % 2 = 0) :
    padMissing (ctx ++ kv) = ctx ++ padMissing kv := by
  have hp : (ctx.length + kv.length) % 2 = kv.length % 2 := by omega
  unfold padMissing
  by_cases hk : kv.length % 2 = 0
  · simp [List.length_append, hp, hk]
  · simp [List.length_append, hp, hk]

theorem contextKeyvals_even (w : World) (ctx : List Value) (hasValuer : Bool)
    (kv : List Value) (h : ctx.length % 2 = 0) :
    contextKeyvals w ctx hasValuer kv =
      (if hasValuer then bindValues w ctx else ctx) ++ padMissing kv := by
  unfold contextKeyvals
  rw [padMissing_append_even ctx kv h]
  cases hasValuer
  · simp
  · by_cases hk : kv.length = 0
    · have : kv = [] := List.length_eq_zero.mp hk
      subst this
      simp [padMissing]
    · simp [hk]

theorem bindValues_append_even (w : World) (a b : List Value) (h : a.length % 2 = 0) :
    bindValues w (a ++ b) = bindValues w a ++ bindValues w b := by
  induction a using bindValues.induct w with
  | case1 k v rest ih =>
    have hr : rest.length % 2 = 0 := by simp [List.length_cons] at h; omega
    simp [bindValues, ih hr]
  | case2 kvs hne =>
    match kvs with
    | [] => simp [bindValues]
    | [x] => simp at h
    | k :: v :: rest => exact absurd rfl (hne k v rest)

theorem encoder_Log (e : Encoding) (kvs : List Value) (w : World) :
    (Logger.encoder e).Log kvs w = emit e kvs w := by
  rw [Logger.Log, emit]

theorem filter_Log_level (next : Logger) (m : Nat) (kvs : List Value) (w : World)
    (l : Severity) (h : level.levelOf kvs = some l) :
    (level.NewFilter next [level.FilterOption.allowed m]).Log kvs w =
      if m &&& level.bit l ≠ 0 then next.Log kvs w else (none, w) := by
  simp [level.NewFilter, level.FilterOption.apply, Logger.Log, h]

theorem filter_Log_nolevel (next : Logger) (m : Nat) (kvs : List Value) (w : World)
    (h : level.levelOf kvs = none) :
    (level.NewFilter next [level.FilterOption.allowed m]).Log kvs w = next.Log kvs w := by
  simp [level.NewFilter, level.FilterOption.apply, Logger.Log, h]

theorem NewPrometheusLogger_eq (l : logging.Level) (format : logging.Format) :
    (NewPrometheusLogger l format).1 =
      Logger.context
        (Logger.prometheus (PrometheusLogger.mk
          (level.NewFilter (Logger.encoder (encodingOf format)) [logFilter l.String])))
        [Value.str "ts", Value.valuer Valuer.DefaultTimestampUTC] true := by
  unfold NewPrometheusLogger encodingOf
  by_cases hf : format.String = "json" <;>
    simp [hf, With, newContext, padMissing, containsValuer]

theorem NewPrometheusLogger_Log (l : logging.Level) (format : logging.Format)
    (kv : List Value) (w : World) :
    (NewPrometheusLogger l format).1.Log kv w =
      (level.NewFilter (Logger.encoder (encodingOf format)) [logFilter l.String]).Log
        (Value.str "ts" :: Value.time w.now :: padMissing kv) w := by
  rw [NewPrometheusLogger_eq, Logger.Log, contextKeyvals_even _ _ _ _ (by decide),
    Logger.Log, PrometheusLogger.Log]
  simp [bindValues, bindValue]

theorem emit_logMessages (e : Encoding) (kvs : List Value) (w : World) :
    (emit e kvs w).2.logMessages = w.logMessages := rfl

/-- No record logged through the logger `NewPrometheusLogger` builds changes a
counter. -/
theorem NewPrometheusLogger_Log_logMessages (l : logging.Level) (format : logging.Format)
    (kv : List Value) (w : World) :
    ((NewPrometheusLogger l format).1.Log kv w).2.logMessages = w.logMessages := by
  have hm : ∃ m, logFilter l.String = level.FilterOption.allowed m := by
    unfold logFilter
    split_ifs <;> exact ⟨_, rfl⟩
  obtain ⟨m, hm⟩ := hm
  rw [NewPrometheusLogger_Log, hm]
  cases hl : level.levelOf (Value.str "ts" :: Value.time w.now :: padMissing kv) with
  | none => rw [filter_Log_nolevel _ _ _ _ hl, encoder_Log, emit_logMessages]
  | some lv =>
    rw [filter_Log_level _ _ _ _ lv hl, encoder_Log]
    split_ifs
    · rw [emit_logMessages]
    · rfl

theorem InitLogger_startedLogger :
    (InitLogger ⟨⟨"info"⟩, ⟨"logfmt"⟩, none⟩).map Prod.fst = Except.ok startedLogger := by
  rfl

/-! ## `NewBucketClient` -/

/-- C1: the vendor configuration `NewBucketClient` builds from `cfg` has each of its
five fields equal to the field of `cfg` of the same name (the key being the `Value` of
the secret), and two configurations that translate to the same vendor configuration
agree on these five fields. -/
theorem C1_bucketConfig_copies_fields (cfg cfg2 : Config) :
    ((bucketConfig cfg).StorageAccountName = cfg.StorageAccountName ∧
      (bucketConfig cfg).StorageAccountKey = cfg.StorageAccountKey.Value ∧
      (bucketConfig cfg).ContainerName = cfg.ContainerName ∧
      (bucketConfig cfg).Endpoint = cfg.Endpoint ∧
      (bucketConfig cfg).MaxRetries = cfg.MaxRetries) ∧
    (bucketConfig cfg = bucketConfig cfg2 →
      cfg.StorageAccountName = cfg2.StorageAccountName ∧
      cfg.StorageAccountKey.Value = cfg2.StorageAccountKey.Value ∧
      cfg.ContainerName = cfg2.ContainerName ∧
      cfg.Endpoint = cfg2.Endpoint ∧
      cfg.MaxRetries = cfg2.MaxRetries) := by
  refine ⟨⟨rfl, rfl, rfl, rfl, rfl⟩, fun h => ?_⟩
  simp only [bucketConfig, azure.Config.mk.injEq] at h
  exact h

theorem C1_bucketConfig_copies_fields_witness :
    sampleConfig.StorageAccountName = sampleConfig.StorageAccountName ∧
    sampleConfig.StorageAccountKey.Value = sampleConfig.StorageAccountKey.Value ∧
    sampleConfig.ContainerName = sampleConfig.ContainerName ∧
    sampleConfig.Endpoint = sampleConfig.Endpoint ∧
    sampleConfig.MaxRetries = sampleConfig.MaxRetries :=
  (C1_bucketConfig_copies_fields sampleConfig sampleConfig).2 rfl

/-- C3: when `yaml.Marshal` of the translated vendor configuration fails with error
`e`, `NewBucketClient` returns the nil client and `e`, and the state is untouched: in
particular the log of vendor constructor invocations is unchanged. -/
theorem C3_marshal_failure_skips_vendor {σ B : Type} (v : Vendor σ B) (cfg : Config)
    (name : String) (logger : Logger) (s : BucketState σ) (e : GoError)
    (h : v.yamlMarshal (bucketConfig cfg) = Except.error e) :
    NewBucketClient v cfg name logger s = ((Bucket.nil, some e), s) ∧
    (NewBucketClient v cfg name logger s).2.calls = s.calls := by
  simp [NewBucketClient, h]

theorem C3_marshal_failure_skips_vendor_witness :
    NewBucketClient failingMarshal sampleConfig "store-1" Logger.nop ⟨0, []⟩ =
      ((Bucket.nil, some ⟨"yaml: cannot marshal", "yaml: cannot marshal"⟩), ⟨0, []⟩) ∧
    (NewBucketClient failingMarshal sampleConfig "store-1" Logger.nop ⟨0, []⟩).2.calls = [] :=
  C3_marshal_failure_skips_vendor failingMarshal sampleConfig "store-1" Logger.nop ⟨0, []⟩
    ⟨"yaml: cannot marshal", "yaml: cannot marshal"⟩ rfl

/-- C4: when `yaml.Marshal` succeeds with bytes `b`, `NewBucketClient` invokes the
vendor constructor once, with `(logger, b, name)` (the invocation log grows by exactly
that entry), and returns the bucket pointer and the error of that invocation, the
pointer converted to the `objstore.Bucket` interface and the error as it is. -/
theorem C4_vendor_result_returned {σ B : Type} (v : Vendor σ B) (cfg : Config)
    (name : String) (logger : Logger) (s : BucketState σ) (b : Bytes)
    (h : v.yamlMarshal (bucketConfig cfg) = Except.ok b) :
    (NewBucketClient v cfg name logger s).2.calls = s.calls ++ [⟨logger, b, name⟩] ∧
    (NewBucketClient v cfg name logger s).2.vendor = (v.NewBucket logger b name s.vendor).2 ∧
    (NewBucketClient v cfg name logger s).1 =
      (Bucket.ofAzure (v.NewBucket logger b name s.vendor).1.1,
        (v.NewBucket logger b name s.vendor).1.2) := by
  simp [NewBucketClient, callNewBucket, h]

theorem C4_vendor_result_returned_witness :
    (NewBucketClient sampleVendor { sampleConfig with ContainerName := "" } "store-1"
        Logger.nop ⟨0, []⟩).2.calls = [] ++ [⟨Logger.nop, [], "store-1"⟩] ∧
    (NewBucketClient sampleVendor { sampleConfig with ContainerName := "" } "store-1"
        Logger.nop ⟨0, []⟩).2.vendor = (sampleVendor.NewBucket Logger.nop [] "store-1" 0).2 ∧
    (NewBucketClient sampleVendor { sampleConfig with ContainerName := "" } "store-1"
        Logger.nop ⟨0, []⟩).1 =
      (Bucket.ofAzure (sampleVendor.NewBucket Logger.nop [] "store-1" 0).1.1,
        (sampleVendor.NewBucket Logger.nop [] "store-1" 0).1.2) :=
  C4_vendor_result_returned sampleVendor { sampleConfig with ContainerName := "" } "store-1"
    Logger.nop ⟨0, []⟩ [] rfl

/-! ## `PrometheusLogger` -/

/-- C5 (evaluation at the failing input): logging one record of level error through the
`PrometheusLogger` that `NewPrometheusLogger` builds leaves the counter of level error
at its old value 0, while the record does reach the output. -/
theorem C5_Log_leaves_counter_unchanged :
    ((PrometheusLogger.mk
        (level.NewFilter (Logger.encoder Encoding.logfmt) [logFilter "info"])).Log
      [level.Key, Value.level Severity.error, Value.str "msg", Value.str "x"]
      World.quiet).2.logMessages Severity.error = 0 ∧
    ((PrometheusLogger.mk
        (level.NewFilter (Logger.encoder Encoding.logfmt) [logFilter "info"])).Log
      [level.Key, Value.level Severity.error, Value.str "msg", Value.str "x"]
      World.quiet).2.stderr =
      [⟨Encoding.logfmt,
        [level.Key, Value.level Severity.error, Value.str "msg", Value.str "x"]⟩] := by
  decide

/-- C6: `PrometheusLogger.Log(kv...)` is one call of the wrapped logger's `Log` with the
same sequence `kv`: it returns the error of that call and leaves the environment that
call leaves; with a wrapped logger that returns no error it returns none. -/
theorem C6_Log_forwards (logger : Logger) (kv : List Value) (w : World) :
    (PrometheusLogger.mk logger).Log kv w = logger.Log kv w ∧
    (∀ f : List Value → World → Option GoError × World,
      (PrometheusLogger.mk (Logger.custom f)).Log kv w = f kv w) ∧
    ((logger.Log kv w).1 = none → ((PrometheusLogger.mk logger).Log kv w).1 = none) := by
  refine ⟨?_, ?_, ?_⟩
  · rw [PrometheusLogger.Log]
  · intro f
    rw [PrometheusLogger.Log, Logger.Log]
  · intro h
    rw [PrometheusLogger.Log]
    exact h

theorem C6_Log_forwards_witness :
    (PrometheusLogger.mk (Logger.encoder Encoding.json)).Log [Value.str "msg"] World.quiet =
      (Logger.encoder Encoding.json).Log [Value.str "msg"] World.quiet ∧
    (PrometheusLogger.mk (Logger.custom fun _ w => (none, w))).Log [Value.str "msg"]
      World.quiet = (none, World.quiet) ∧
    ((Logger.nop.Log [Value.str "msg"] World.quiet).1 = none ∧
      ((PrometheusLogger.mk Logger.nop).Log [Value.str "msg"] World.quiet).1 = none) :=
  ⟨(C6_Log_forwards (Logger.encoder Encoding.json) [Value.str "msg"] World.quiet).1,
    (C6_Log_forwards Logger.nop [Value.str "msg"] World.quiet).2.1 fun _ w => (none, w),
    rfl, (C6_Log_forwards Logger.nop [Value.str "msg"] World.quiet).2.2 rfl⟩

/-- C7: for thresholds `t` and levels `l` among debug, info, warn and error, the logger
`NewPrometheusLogger` builds with threshold `t` hands a record whose level is `l` to
the output encoder (once, with the timestamp pair in front) when `t` is at most `l` in
the order debug < info < warn < error, and otherwise leaves the environment as it is;
the same holds for a record logged through `level.Debug`, ..., `level.Error`. -/
theorem C7_threshold_filter (t l : Severity) (format : logging.Format) (kv : List Value)
    (w : World) (h : level.levelOf kv = some l) :
    (NewPrometheusLogger ⟨t.name⟩ format).1.Log kv w =
      (if t.rank ≤ l.rank then
        emit (encodingOf format) (Value.str "ts" :: Value.time w.now :: padMissing kv) w
      else (none, w)) ∧
    ∀ kv2 : List Value,
      (level.leveled l (NewPrometheusLogger ⟨t.name⟩ format).1).Log kv2 w =
        (if t.rank ≤ l.rank then
          emit (encodingOf format)
            (level.Key :: Value.level l :: Value.str "ts" :: Value.time w.now ::
              padMissing kv2) w
        else (none, w)) := by
  have hl : level.levelOf (Value.str "ts" :: Value.time w.now :: padMissing kv) = some l := by
    rw [level.levelOf, levelOf_padMissing, h]
    intro l2 hc
    cases hc
  have hm : ∃ m, logFilter (logging.Level.mk t.name).String = level.FilterOption.allowed m ∧
      (m &&& level.bit l ≠ 0 ↔ t.rank ≤ l.rank) := by
    cases t <;> cases l <;> refine ⟨_, rfl, ?_⟩ <;> decide
  obtain ⟨m, hm1, hm2⟩ := hm
  refine ⟨?_, fun kv2 => ?_⟩
  · rw [NewPrometheusLogger_Log, hm1, filter_Log_level _ _ _ _ l hl, encoder_Log]
    by_cases hr : t.rank ≤ l.rank
    · rw [if_pos hr, if_pos (hm2.mpr hr)]
    · rw [if_neg hr, if_neg (fun hc => hr (hm2.mp hc))]
  · have hctx : level.leveled l (NewPrometheusLogger ⟨t.name⟩ format).1 =
        Logger.context
          (Logger.prometheus (PrometheusLogger.mk
            (level.NewFilter (Logger.encoder (encodingOf format))
              [logFilter (logging.Level.mk t.name).String])))
          [level.Key, Value.level l, Value.str "ts",
            Value.valuer Valuer.DefaultTimestampUTC] true := by
      rw [NewPrometheusLogger_eq]
      cases l <;>
        simp [level.leveled, level.Debug, level.Info, level.Warn, level.Error, WithPrefix,
          newContext, padMissing, containsValuer]
    have hl2 : level.levelOf (level.Key :: Value.level l :: Value.str "ts" ::
        Value.time w.now :: padMissing kv2) = some l := by
      rw [level.levelOf]
    have hlen : [level.Key, Value.level l, Value.str "ts",
        Value.valuer Valuer.DefaultTimestampUTC].length % 2 = 0 := by simp
    rw [hctx, Logger.Log, contextKeyvals_even _ _ _ _ hlen, Logger.Log,
      PrometheusLogger.Log, hm1]
    simp only [bindValues, bindValue, if_true, List.cons_append, List.nil_append]
    rw [filter_Log_level _ _ _ _ l hl2, encoder_Log]
    by_cases hr : t.rank ≤ l.rank
    · rw [if_pos hr, if_pos (hm2.mpr hr)]
    · rw [if_neg hr, if_neg (fun hc => hr (hm2.mp hc))]

theorem C7_threshold_filter_witness :
    level.levelOf [level.Key, Value.level Severity.info, Value.str "msg", Value.str "x"] =
      some Severity.info ∧
    ((NewPrometheusLogger ⟨"warn"⟩ ⟨"json"⟩).1.Log
        [level.Key, Value.level Severity.info, Value.str "msg", Value.str "x"]
        World.quiet).2.stderr = [] ∧
    ((level.leveled Severity.info (NewPrometheusLogger ⟨"warn"⟩ ⟨"json"⟩).1).Log
        [Value.str "msg", Value.str "x"] World.quiet).2.stderr = [] ∧
    ((NewPrometheusLogger ⟨"info"⟩ ⟨"json"⟩).1.Log
        [level.Key, Value.level Severity.info, Value.str "msg", Value.str "x"]
        World.quiet).2.stderr =
      [⟨Encoding.json, [Value.str "ts", Value.time 7, level.Key, Value.level Severity.info,
        Value.str "msg", Value.str "x"]⟩] :=
  ⟨rfl,
    congrArg (fun r : LogResult => r.2.stderr)
      (C7_threshold_filter Severity.warn Severity.info ⟨"json"⟩
        [level.Key, Value.level Severity.info, Value.str "msg", Value.str "x"]
        World.quiet rfl).1,
    congrArg (fun r : LogResult => r.2.stderr)
      ((C7_threshold_filter Severity.warn Severity.info ⟨"json"⟩
        [level.Key, Value.level Severity.info, Value.str "msg", Value.str "x"]
        World.quiet rfl).2 [Value.str "msg", Value.str "x"]),
    congrArg (fun r : LogResult => r.2.stderr)
      (C7_threshold_filter Severity.info Severity.info ⟨"json"⟩
        [level.Key, Value.level Severity.info, Value.str "msg", Value.str "x"]
        World.quiet rfl).1⟩

/-- C8: for a threshold string other than "debug", "info", "warn" and "error",
`logFilter` returns `level.AllowAll()`, `NewPrometheusLogger` returns a nil error, and
the logger it builds hands every record, whatever its level, to the output encoder. -/
theorem C8_unrecognised_threshold_allows_all (s : String) (hd : s ≠ "debug")
    (hi : s ≠ "info") (hw : s ≠ "warn") (he : s ≠ "error") :
    logFilter s = level.AllowAll ∧
    ∀ (format : logging.Format) (kv : List Value) (w : World),
      (NewPrometheusLogger ⟨s⟩ format).2 = none ∧
      (NewPrometheusLogger ⟨s⟩ format).1.Log kv w =
        emit (encodingOf format) (Value.str "ts" :: Value.time w.now :: padMissing kv) w := by
  have hf : logFilter s = level.AllowAll := by
    simp [logFilter, hd, hi, hw, he]
  refine ⟨hf, fun format kv w => ⟨rfl, ?_⟩⟩
  have hs : (logging.Level.mk s).String = s := rfl
  rw [NewPrometheusLogger_Log, hs, hf]
  cases hl : level.levelOf (Value.str "ts" :: Value.time w.now :: padMissing kv) with
  | none =>
    rw [show level.AllowAll = level.FilterOption.allowed 15 from rfl,
      filter_Log_nolevel _ _ _ _ hl, encoder_Log]
  | some l =>
    rw [show level.AllowAll = level.FilterOption.allowed 15 from rfl,
      filter_Log_level _ _ _ _ l hl, encoder_Log]
    have : (15 &&& level.bit l ≠ 0) := by cases l <;> decide
    rw [if_pos this]

theorem C8_unrecognised_threshold_allows_all_witness :
    ("ERROR" ≠ "debug" ∧ "ERROR" ≠ "info" ∧ "ERROR" ≠ "warn" ∧ "ERROR" ≠ "error") ∧
    logFilter "ERROR" = level.AllowAll ∧
    logFilter "" = level.AllowAll ∧
    (NewPrometheusLogger ⟨"ERROR"⟩ ⟨"logfmt"⟩).2 = none ∧
    ((NewPrometheusLogger ⟨"ERROR"⟩ ⟨"logfmt"⟩).1.Log
        [level.Key, Value.level Severity.debug] World.quiet).2.stderr =
      [⟨Encoding.logfmt,
        [Value.str "ts", Value.time 7, level.Key, Value.level Severity.debug]⟩] :=
  ⟨by decide,
    (C8_unrecognised_threshold_allows_all "ERROR" (by decide) (by decide) (by decide)
      (by decide)).1,
    (C8_unrecognised_threshold_allows_all "" (by decide) (by decide) (by decide)
      (by decide)).1,
    ((C8_unrecognised_threshold_allows_all "ERROR" (by decide) (by decide) (by decide)
      (by decide)).2 ⟨"logfmt"⟩ [level.Key, Value.level Severity.debug] World.quiet).1,
    congrArg (fun r : LogResult => r.2.stderr)
      ((C8_unrecognised_threshold_allows_all "ERROR" (by decide) (by decide) (by decide)
        (by decide)).2 ⟨"logfmt"⟩ [level.Key, Value.level Severity.debug] World.quiet).2⟩

/-- C9: `CheckFatal(location, nil)` returns with the environment untouched.  With a
non-nil error `e` it makes one `Log` call on the logger under the package variable
`Logger` (whose context has an even number of elements, as every contextual logger
go-kit builds has), with the record `fatalRecord`: level error, the `msg` pair
`"error " + location` exactly when `location` is not empty, and the `err` pair holding
the `%+v` text of `e`; then the process exits with status 1. -/
theorem C9_CheckFatal (L : Logger) (location : String) (w : World)
    (hctx : (newContext L).2.1.length % 2 = 0) :
    CheckFatal L location none w = Outcome.returned w ∧
    ∀ e : GoError,
      CheckFatal L location (some e) w =
        Outcome.exited 1
          ((newContext L).1.Log
            (fatalRecord w (newContext L).2.1 (newContext L).2.2 location e) w).2 ∧
      level.levelOf (fatalRecord w (newContext L).2.1 (newContext L).2.2 location e) =
        some Severity.error := by
  refine ⟨rfl, fun e => ⟨?_, by simp [fatalRecord, level.levelOf]⟩⟩
  have hE : level.Error L = Logger.context (newContext L).1
      (level.Key :: Value.level Severity.error :: (newContext L).2.1) (newContext L).2.2 := by
    simp [level.Error, WithPrefix, padMissing, containsValuer]
  unfold CheckFatal
  simp only [hE, sprintfPlusV]
  clear hE
  revert hctx
  generalize newContext L = c
  obtain ⟨base, ctx, hv⟩ := c
  intro hctx
  simp only at hctx ⊢
  have hlen : (level.Key :: Value.level Severity.error :: ctx).length % 2 = 0 := by
    simp only [List.length_cons]
    omega
  by_cases hloc : location = ""
  · simp only [hloc, ne_eq, not_true_eq_false, if_false]
    rw [Logger.Log, contextKeyvals_even _ _ _ _ hlen]
    cases hv <;> simp [fatalRecord, padMissing, bindValues, bindValue]
  · have hW : With (Logger.context base (level.Key :: Value.level Severity.error :: ctx) hv)
          [Value.str "msg", Value.str ("error " ++ location)] =
        Logger.context base
          ((level.Key :: Value.level Severity.error :: ctx) ++
            [Value.str "msg", Value.str ("error " ++ location)]) hv := by
      simp only [With, newContext, containsValuer, padMissing_append_even _ _ hlen]
      simp [padMissing]
    have hlen2 : ((level.Key :: Value.level Severity.error :: ctx) ++
        [Value.str "msg", Value.str ("error " ++ location)]).length % 2 = 0 := by
      simp only [List.length_cons, List.length_append, List.length_nil]
      omega
    simp only [ne_eq, hloc, not_false_eq_true, if_true, hW]
    rw [Logger.Log, contextKeyvals_even _ _ _ _ hlen2]
    cases hv
    · simp [fatalRecord, hloc, padMissing]
    · simp [fatalRecord, hloc, padMissing, bindValues_append_even _ _ _ hlen,
        bindValues_append_even _ _ _ hctx, bindValues, bindValue]

theorem C9_CheckFatal_witness :
    (newContext startedLogger).2.1.length % 2 = 0 ∧
    CheckFatal startedLogger "loading config" none World.quiet =
      Outcome.returned World.quiet ∧
    CheckFatal startedLogger "loading config" (some ⟨"boom", "boom at main.go:1"⟩)
        World.quiet =
      Outcome.exited 1
        { World.quiet with
          stderr := [⟨Encoding.logfmt,
            [level.Key, Value.level Severity.error, Value.str "ts", Value.time 7,
              Value.str "caller", Value.str "frame3", Value.str "msg",
              Value.str "error loading config", Value.str "err",
              Value.str "boom at main.go:1"]⟩] } :=
  ⟨by decide,
    (C9_CheckFatal startedLogger "loading config" World.quiet (by decide)).1,
    ((C9_CheckFatal startedLogger "loading config" World.quiet (by decide)).2
      ⟨"boom", "boom at main.go:1"⟩).1⟩

/-- C10: for every level and format `NewPrometheusLogger` returns a nil error, and for
every server configuration `InitLogger` completes without panicking. -/
theorem C10_NewPrometheusLogger_never_fails (l : logging.Level) (format : logging.Format)
    (cfg : server.Config) :
    (NewPrometheusLogger l format).2 = none ∧
    ∃ r, InitLogger cfg = Except.ok r := by
  refine ⟨rfl, ?_⟩
  simp [InitLogger, NewPrometheusLogger]

end Mimir
